import Mathlib

/-!
# Todo API (`main.go`): handlers over the in-memory task collection

The six route handlers registered in `main` are embedded as pure functions from
the current value of the global slice `tasks` to the HTTP response and the new
value of `tasks`.  What the handlers obtain from libraries is an input of the
embedding:

* `uuid.Parse(c.Params("id"))` : the `Option UUID` carried by the request
  (`none` when `err != nil`);
* `c.BodyParser(&newTask)` : the `Option Task` carried by the request
  (`none` when `err != nil`, otherwise the decoded struct);
* `uuid.New()` : the identifier `fresh` handed to the create handler;
* `id.String()` : the function `str`.

A critical section guarded by `mu` is one atomic function.  The delete handler
has two of them (`deleteLocate`, `deleteCommit`).
-/

namespace TodoApi

/-- Identifier `uuid.UUID` (a 16-byte array), represented by the number its
bytes encode.  The handlers only compare identifiers for equality. -/
structure UUID where
  val : Nat
deriving DecidableEq, Repr

/-- Record `Task` of `main.go`. -/
structure Task where
  ID : UUID
  Title : String
  Body : String
  Status : String
deriving DecidableEq, Repr

/-- JSON document written by a handler: a task, the task array, or one of the
two `fiber.Map` shapes `{"error": msg}` and `{"message": msg}`. -/
inductive Payload where
  | task (t : Task)
  | tasks (ts : List Task)
  | error (msg : String)
  | message (msg : String)
deriving DecidableEq, Repr

/-- Response of a handler: status code, `Location` header when set, JSON body. -/
structure Response where
  status : Nat
  location : Option String
  body : Payload
deriving DecidableEq, Repr

/-- Constant `fiber.StatusOK`. -/
def StatusOK : Nat := 200

/-- Constant `fiber.StatusCreated`. -/
def StatusCreated : Nat := 201

/-- Constant `fiber.StatusBadRequest`. -/
def StatusBadRequest : Nat := 400

/-- Constant `fiber.StatusNotFound`. -/
def StatusNotFound : Nat := 404

/-- Constant `fiber.StatusUnsupportedMediaType`. -/
def StatusUnsupportedMediaType : Nat := 415

/-- Test `strings.HasPrefix(c.Get("Content-Type"), "application/json")`. -/
def jsonContentType (contentType : String) : Bool :=
  "application/json".toList.isPrefixOf contentType.toList

/-- Function `invalidIDError`. -/
def invalidIDError : Response :=
  ⟨StatusBadRequest, none, .error "invalid id"⟩

/-- The 404 answer shared by the handlers that look a task up. -/
def taskNotFound : Response :=
  ⟨StatusNotFound, none, .error "task not found"⟩

/-- The 415 answer of the create and replace handlers. -/
def unsupportedMediaType : Response :=
  ⟨StatusUnsupportedMediaType, none, .error "Content-Type must be application/json"⟩

/-- The 400 answer for a body that `BodyParser` rejects. -/
def invalidJSONBody : Response :=
  ⟨StatusBadRequest, none, .error "invalid JSON body"⟩

/-- The 400 answer for `newTask.Body == ""`. -/
def bodyRequired : Response :=
  ⟨StatusBadRequest, none, .error "field 'body' is required"⟩

/-- The 400 answer for `newTask.Title == ""`. -/
def titleRequired : Response :=
  ⟨StatusBadRequest, none, .error "field 'title' is required"⟩

/-- Handler `GET /api/tasks`: a copy of the slice. -/
def getTasks (tasks : List Task) : Response × List Task :=
  (⟨StatusOK, none, .tasks tasks⟩, tasks)

/-- Loop `for _, t := range tasks` of `GET /api/tasks/:id`. -/
def getLoop (id : UUID) : List Task → Response
  | [] => taskNotFound
  | t :: rest => if t.ID = id then ⟨StatusOK, none, .task t⟩ else getLoop id rest

/-- Handler `GET /api/tasks/:id`. -/
def getTask (tasks : List Task) (id : Option UUID) : Response × List Task :=
  match id with
  | none => (invalidIDError, tasks)
  | some id => (getLoop id tasks, tasks)

/-- Handler `POST /api/tasks`. -/
def postTask (str : UUID → String) (fresh : UUID) (tasks : List Task)
    (contentType : String) (parsed : Option Task) : Response × List Task :=
  if !jsonContentType contentType then (unsupportedMediaType, tasks)
  else match parsed with
    | none => (invalidJSONBody, tasks)
    | some newTask =>
      if newTask.Body = "" then (bodyRequired, tasks)
      else if newTask.Title = "" then (titleRequired, tasks)
      else
        let newTask := { newTask with ID := fresh, Status := "no" }
        (⟨StatusCreated, some ("/api/tasks/" ++ str newTask.ID), .task newTask⟩,
          tasks ++ [newTask])

/-- Loop `for i, e := range tasks` of `PATCH /api/tasks/:id`. -/
def patchLoop (id : UUID) : List Task → Response × List Task
  | [] => (taskNotFound, [])
  | e :: rest =>
    if e.ID = id then
      let e := { e with Status := "yes" }
      (⟨StatusOK, none, .task e⟩, e :: rest)
    else
      let r := patchLoop id rest
      (r.1, e :: r.2)

/-- Handler `PATCH /api/tasks/:id`. -/
def patchTask (tasks : List Task) (id : Option UUID) : Response × List Task :=
  match id with
  | none => (invalidIDError, tasks)
  | some id => patchLoop id tasks

/-- Loop `for i, t := range tasks` of `PUT /api/tasks/:id`. -/
def putLoop (id : UUID) (newTask : Task) : List Task → Response × List Task
  | [] => (taskNotFound, [])
  | t :: rest =>
    if t.ID = id then
      let newTask := { newTask with ID := t.ID, Status := t.Status }
      (⟨StatusOK, none, .task newTask⟩, newTask :: rest)
    else
      let r := putLoop id newTask rest
      (r.1, t :: r.2)

/-- Handler `PUT /api/tasks/:id`. -/
def putTask (tasks : List Task) (contentType : String) (id : Option UUID)
    (parsed : Option Task) : Response × List Task :=
  if !jsonContentType contentType then (unsupportedMediaType, tasks)
  else match id with
    | none => (invalidIDError, tasks)
    | some id =>
      match parsed with
      | none => (invalidJSONBody, tasks)
      | some newTask =>
        if newTask.Body = "" then (bodyRequired, tasks)
        else if newTask.Title = "" then (titleRequired, tasks)
        else putLoop id newTask tasks

/-- First critical section of `DELETE /api/tasks/:id` (under `mu.RLock`): the
pair `isExist`, `index` as an option. -/
def deleteLocate (id : UUID) : List Task → Option Nat
  | [] => none
  | e :: rest => if e.ID = id then some 0 else (deleteLocate id rest).map (· + 1)

/-- Second critical section of `DELETE /api/tasks/:id` (under `mu.Lock`):
`tasks = append(tasks[:index], tasks[index+1:]...)`.  The slice expression
`tasks[index+1:]` panics when `index + 1 > len(tasks)`: result `none`. -/
def deleteCommit (str : UUID → String) (id : UUID) (index : Nat) (tasks : List Task) :
    Option (Response × List Task) :=
  if index + 1 ≤ tasks.length then
    some (⟨StatusOK, none, .message ("deleted task with id " ++ str id)⟩,
      tasks.take index ++ tasks.drop (index + 1))
  else none

/-- Handler `DELETE /api/tasks/:id` run with no other request between its two
critical sections. -/
def deleteTask (str : UUID → String) (tasks : List Task) (id : Option UUID) :
    Option (Response × List Task) :=
  match id with
  | none => some (invalidIDError, tasks)
  | some id =>
    match deleteLocate id tasks with
    | some index => deleteCommit str id index tasks
    | none => some (taskNotFound, tasks)

/-- A request as the router dispatches it, with the outcomes of `uuid.Parse`
and `BodyParser` on it. -/
inductive Request where
  | list
  | get (id : Option UUID)
  | post (contentType : String) (parsed : Option Task)
  | patch (id : Option UUID)
  | put (contentType : String) (id : Option UUID) (parsed : Option Task)
  | delete (id : Option UUID)
deriving DecidableEq, Repr

/-- One request served alone; `fresh` is what `uuid.New()` returns if called. -/
def handle (str : UUID → String) (fresh : UUID) (tasks : List Task) :
    Request → Option (Response × List Task)
  | .list => some (getTasks tasks)
  | .get id => some (getTask tasks id)
  | .post contentType parsed => some (postTask str fresh tasks contentType parsed)
  | .patch id => some (patchTask tasks id)
  | .put contentType id parsed => some (putTask tasks contentType id parsed)
  | .delete id => deleteTask str tasks id

/-- Process state: the slice `tasks` and how many identifiers `uuid.New()` has
returned so far. -/
structure Server where
  tasks : List Task
  issued : Nat
deriving DecidableEq, Repr

/-- Function `startConf` applied to the initial empty slice; `gen k` is the
identifier returned by the call number `k` of `uuid.New()`. -/
def startConf (gen : Nat → UUID) : Server :=
  { tasks := [] ++
      [ { ID := gen 0, Title := "buy groceries", Body := "list: banana, apple, bread",
          Status := "no" },
        { ID := gen 1, Title := "go to gym", Body := "It's a leg-day today",
          Status := "no" } ],
    issued := 2 }

/-- One request against the server.  `uuid.New()` is called on the path of the
create handler that answers `StatusCreated`, and on no other path. -/
def step (str : UUID → String) (gen : Nat → UUID) (s : Server) (req : Request) :
    Option (Response × Server) :=
  match handle str (gen s.issued) s.tasks req with
  | none => none
  | some (res, tasks) =>
    some (res, { tasks := tasks,
                 issued := if res.status = StatusCreated then s.issued + 1 else s.issued })

/-- A sequence of requests served one after the other, with the responses. -/
def run (str : UUID → String) (gen : Nat → UUID) (s : Server) :
    List Request → Option (List Response × Server)
  | [] => some ([], s)
  | req :: rest =>
    match step str gen s req with
    | none => none
    | some (res, s') =>
      match run str gen s' rest with
      | none => none
      | some (out, s'') => some (res :: out, s'')

/-- Identifiers returned by the successful create requests of a run, in order. -/
def createdIDs : List Response → List UUID
  | [] => []
  | res :: rest =>
    match res.body with
    | .task t => if res.status = StatusCreated then t.ID :: createdIDs rest else createdIDs rest
    | _ => createdIDs rest

/-- Identifiers of a collection, in order. -/
def ids (tasks : List Task) : List UUID := tasks.map (·.ID)

/-- Rendering of identifiers used in the worked examples (the theorems hold
for every rendering `str`). -/
def decimalString (u : UUID) : String := toString u.val

/-- Generator used in the worked examples: call number `k` returns identifier `k`. -/
def countingGen (k : Nat) : UUID := ⟨k⟩

/-- The seeded collection under `countingGen`. -/
def seeded : List Task := (startConf countingGen).tasks

/-! ## The loops on a collection split at the first task with the identifier -/

theorem first_match (id : UUID) (tasks : List Task) (h : id ∈ ids tasks) :
    ∃ pre e post, tasks = pre ++ e :: post ∧ e.ID = id ∧ ∀ t ∈ pre, t.ID ≠ id := by
  induction tasks with
  | nil => simp [ids] at h
  | cons a rest ih =>
    by_cases ha : a.ID = id
    · exact ⟨[], a, rest, rfl, ha, by simp⟩
    · have h' : id ∈ ids rest := by
        simp only [ids, List.map_cons, List.mem_cons] at h
        rcases h with h | h
        · exact absurd h.symm ha
        · exact h
      obtain ⟨pre, e, post, hs, he, hpre⟩ := ih h'
      refine ⟨a :: pre, e, post, by simp [hs], he, ?_⟩
      intro t ht
      simp only [List.mem_cons] at ht
      rcases ht with rfl | ht
      · exact ha
      · exact hpre t ht

theorem not_mem_ids {id : UUID} {tasks : List Task} :
    id ∉ ids tasks ↔ ∀ t ∈ tasks, t.ID ≠ id := by
  simp only [ids, List.mem_map, not_exists, not_and]

theorem getLoop_append (id : UUID) (pre : List Task) (e : Task) (post : List Task)
    (hpre : ∀ t ∈ pre, t.ID ≠ id) (he : e.ID = id) :
    getLoop id (pre ++ e :: post) = ⟨StatusOK, none, .task e⟩ := by
  induction pre with
  | nil => simp [getLoop, he]
  | cons a pre ih =>
    have ha : a.ID ≠ id := hpre a (by simp)
    simp only [List.cons_append, getLoop, ha, if_false]
    exact ih (fun t ht => hpre t (by simp [ht]))

theorem getLoop_absent (id : UUID) (tasks : List Task) (h : ∀ t ∈ tasks, t.ID ≠ id) :
    getLoop id tasks = taskNotFound := by
  induction tasks with
  | nil => rfl
  | cons a rest ih =>
    have ha : a.ID ≠ id := h a (by simp)
    simp only [getLoop, ha, if_false]
    exact ih (fun t ht => h t (by simp [ht]))

theorem patchLoop_append (id : UUID) (pre : List Task) (e : Task) (post : List Task)
    (hpre : ∀ t ∈ pre, t.ID ≠ id) (he : e.ID = id) :
    patchLoop id (pre ++ e :: post) =
      (⟨StatusOK, none, .task { e with Status := "yes" }⟩,
        pre ++ { e with Status := "yes" } :: post) := by
  induction pre with
  | nil => simp [patchLoop, he]
  | cons a pre ih =>
    have ha : a.ID ≠ id := hpre a (by simp)
    rw [List.cons_append, patchLoop, if_neg ha, ih (fun t ht => hpre t (by simp [ht]))]
    rfl

theorem patchLoop_absent (id : UUID) (tasks : List Task) (h : ∀ t ∈ tasks, t.ID ≠ id) :
    patchLoop id tasks = (taskNotFound, tasks) := by
  induction tasks with
  | nil => rfl
  | cons a rest ih =>
    have ha : a.ID ≠ id := h a (by simp)
    simp only [patchLoop, ha, if_false]
    rw [ih (fun t ht => h t (by simp [ht]))]

theorem putLoop_append (id : UUID) (newTask : Task) (pre : List Task) (e : Task)
    (post : List Task) (hpre : ∀ t ∈ pre, t.ID ≠ id) (he : e.ID = id) :
    putLoop id newTask (pre ++ e :: post) =
      (⟨StatusOK, none, .task ⟨e.ID, newTask.Title, newTask.Body, e.Status⟩⟩,
        pre ++ ⟨e.ID, newTask.Title, newTask.Body, e.Status⟩ :: post) := by
  induction pre with
  | nil => simp [putLoop, he]
  | cons a pre ih =>
    have ha : a.ID ≠ id := hpre a (by simp)
    rw [List.cons_append, putLoop, if_neg ha, ih (fun t ht => hpre t (by simp [ht]))]
    rfl

theorem putLoop_absent (id : UUID) (newTask : Task) (tasks : List Task)
    (h : ∀ t ∈ tasks, t.ID ≠ id) :
    putLoop id newTask tasks = (taskNotFound, tasks) := by
  induction tasks with
  | nil => rfl
  | cons a rest ih =>
    have ha : a.ID ≠ id := h a (by simp)
    simp only [putLoop, ha, if_false]
    rw [ih (fun t ht => h t (by simp [ht]))]

theorem deleteLocate_append (id : UUID) (pre : List Task) (e : Task) (post : List Task)
    (hpre : ∀ t ∈ pre, t.ID ≠ id) (he : e.ID = id) :
    deleteLocate id (pre ++ e :: post) = some pre.length := by
  induction pre with
  | nil => simp [deleteLocate, he]
  | cons a pre ih =>
    have ha : a.ID ≠ id := hpre a (by simp)
    rw [List.cons_append, deleteLocate, if_neg ha, ih (fun t ht => hpre t (by simp [ht]))]
    simp

theorem deleteLocate_absent (id : UUID) (tasks : List Task) (h : ∀ t ∈ tasks, t.ID ≠ id) :
    deleteLocate id tasks = none := by
  induction tasks with
  | nil => rfl
  | cons a rest ih =>
    have ha : a.ID ≠ id := h a (by simp)
    simp only [deleteLocate, ha, if_false]
    rw [ih (fun t ht => h t (by simp [ht]))]
    rfl

theorem deleteCommit_append (str : UUID → String) (id : UUID) (pre : List Task) (e : Task)
    (post : List Task) :
    deleteCommit str id pre.length (pre ++ e :: post) =
      some (⟨StatusOK, none, .message ("deleted task with id " ++ str id)⟩, pre ++ post) := by
  have hlen : pre.length + 1 ≤ (pre ++ e :: post).length := by simp
  simp only [deleteCommit, hlen, if_true]
  have h1 : List.take pre.length (pre ++ e :: post) = pre := by simp
  have h2 : List.drop (pre.length + 1) (pre ++ e :: post) = post := by
    rw [← List.drop_drop]
    simp
  rw [h1, h2]

/-- Sequential delete of a present identifier: the first task carrying it goes. -/
theorem deleteTask_append (str : UUID → String) (id : UUID) (pre : List Task) (e : Task)
    (post : List Task) (hpre : ∀ t ∈ pre, t.ID ≠ id) (he : e.ID = id) :
    deleteTask str (pre ++ e :: post) (some id) =
      some (⟨StatusOK, none, .message ("deleted task with id " ++ str id)⟩, pre ++ post) := by
  simp only [deleteTask, deleteLocate_append id pre e post hpre he]
  exact deleteCommit_append str id pre e post

theorem deleteTask_absent (str : UUID → String) (id : UUID) (tasks : List Task)
    (h : ∀ t ∈ tasks, t.ID ≠ id) :
    deleteTask str tasks (some id) = some (taskNotFound, tasks) := by
  simp only [deleteTask, deleteLocate_absent id tasks h]

theorem putLoop_body_ne_title (id : UUID) (newTask : Task) (tasks : List Task) :
    (putLoop id newTask tasks).1.body ≠ .error "field 'title' is required" := by
  by_cases h : id ∈ ids tasks
  · obtain ⟨pre, e, post, hs, he, hpre⟩ := first_match id tasks h
    rw [hs, putLoop_append id newTask pre e post hpre he]
    simp
  · rw [putLoop_absent id newTask tasks (not_mem_ids.mp h)]
    simp [taskNotFound]

theorem ids_append_cons (pre : List Task) (e : Task) (post : List Task) :
    ids (pre ++ e :: post) = ids pre ++ e.ID :: ids post := by
  simp [ids]

/-! ## Create -/

/-- C1 (as amended): a create request with a JSON content type, a parseable body
and non-empty title and body is answered 201 with the task made of the request's
title and body, the server-generated id and status `no`, whatever id and status
the body carried; the new collection is the old one with that task appended. -/
theorem postTask_creates (str : UUID → String) (fresh : UUID) (tasks : List Task)
    (contentType : String) (newTask : Task)
    (hct : jsonContentType contentType = true)
    (hTitle : newTask.Title ≠ "") (hBody : newTask.Body ≠ "") :
    postTask str fresh tasks contentType (some newTask) =
      (⟨StatusCreated, some ("/api/tasks/" ++ str fresh),
          .task ⟨fresh, newTask.Title, newTask.Body, "no"⟩⟩,
        tasks ++ [⟨fresh, newTask.Title, newTask.Body, "no"⟩]) := by
  simp [postTask, hct, hTitle, hBody]

theorem postTask_creates_witness :
    jsonContentType "application/json" = true ∧
    (⟨⟨9⟩, "t", "b", "complete"⟩ : Task).Title ≠ "" ∧
    (⟨⟨9⟩, "t", "b", "complete"⟩ : Task).Body ≠ "" ∧
    postTask decimalString ⟨2⟩ seeded "application/json" (some ⟨⟨9⟩, "t", "b", "complete"⟩) =
      (⟨StatusCreated, some ("/api/tasks/" ++ decimalString ⟨2⟩),
          .task ⟨⟨2⟩, "t", "b", "no"⟩⟩,
        seeded ++ [⟨⟨2⟩, "t", "b", "no"⟩]) :=
  ⟨by decide, by decide, by decide,
    postTask_creates decimalString ⟨2⟩ seeded "application/json" ⟨⟨9⟩, "t", "b", "complete"⟩
      (by decide) (by decide) (by decide)⟩

/-- C1 as stated fails: on the seeded collection a valid create request (here
one whose body even asks for status `incomplete`) is answered with a task whose
status is not `incomplete`. -/
theorem postTask_status_not_incomplete :
    ¬ ∃ t, (postTask decimalString ⟨2⟩ seeded "application/json"
              (some ⟨⟨9⟩, "t", "b", "incomplete"⟩)).1.body = .task t ∧
            t.Status = "incomplete" := by
  rintro ⟨t, ht, hs⟩
  rw [postTask_creates decimalString ⟨2⟩ seeded "application/json" _
    (by decide) (by decide) (by decide)] at ht
  simp only [Payload.task.injEq] at ht
  subst ht
  exact absurd hs (by decide)

/-- C4: a create request with a JSON content type and a parseable body whose
title or body is empty is answered 400 and the collection is left as it was. -/
theorem postTask_rejects_empty (str : UUID → String) (fresh : UUID) (tasks : List Task)
    (contentType : String) (newTask : Task)
    (hct : jsonContentType contentType = true)
    (hEmpty : newTask.Title = "" ∨ newTask.Body = "") :
    (postTask str fresh tasks contentType (some newTask)).1.status = StatusBadRequest ∧
    (postTask str fresh tasks contentType (some newTask)).2 = tasks := by
  by_cases hB : newTask.Body = ""
  · simp [postTask, hct, hB, bodyRequired]
  · have hT : newTask.Title = "" := hEmpty.resolve_right hB
    simp [postTask, hct, hB, hT, titleRequired]

theorem postTask_rejects_empty_witness :
    jsonContentType "application/json" = true ∧
    ((⟨⟨0⟩, "", "b", ""⟩ : Task).Title = "" ∨ (⟨⟨0⟩, "", "b", ""⟩ : Task).Body = "") ∧
    (postTask decimalString ⟨2⟩ seeded "application/json"
        (some ⟨⟨0⟩, "", "b", ""⟩)).1.status = StatusBadRequest ∧
    (postTask decimalString ⟨2⟩ seeded "application/json"
        (some ⟨⟨0⟩, "", "b", ""⟩)).2 = seeded :=
  ⟨by decide, by decide,
    postTask_rejects_empty decimalString ⟨2⟩ seeded "application/json" ⟨⟨0⟩, "", "b", ""⟩
      (by decide) (by decide)⟩

/-! ## Replace -/

/-- C2: for a replace request with a JSON content type, a parseable id and body
and non-empty title and body: if the collection has a task with the id, the
answer is 200, the first such task now carries the request's title and body with
its own previous id and status (whatever id and status the body carried), every
other entry is as before, and the returned task is the updated entry; if no task
has the id, the answer is 404. -/
theorem putTask_replaces (tasks : List Task) (contentType : String) (id : UUID)
    (newTask : Task)
    (hct : jsonContentType contentType = true)
    (hTitle : newTask.Title ≠ "") (hBody : newTask.Body ≠ "") :
    (id ∈ ids tasks →
      ∃ pre old post, tasks = pre ++ old :: post ∧ old.ID = id ∧ (∀ t ∈ pre, t.ID ≠ id) ∧
        putTask tasks contentType (some id) (some newTask) =
          (⟨StatusOK, none, .task ⟨old.ID, newTask.Title, newTask.Body, old.Status⟩⟩,
            pre ++ ⟨old.ID, newTask.Title, newTask.Body, old.Status⟩ :: post)) ∧
    (id ∉ ids tasks →
      putTask tasks contentType (some id) (some newTask) =
        (⟨StatusNotFound, none, .error "task not found"⟩, tasks)) := by
  have hput : putTask tasks contentType (some id) (some newTask) = putLoop id newTask tasks := by
    simp [putTask, hct, hTitle, hBody]
  constructor
  · intro h
    obtain ⟨pre, e, post, hs, he, hpre⟩ := first_match id tasks h
    refine ⟨pre, e, post, hs, he, hpre, ?_⟩
    rw [hput, hs, putLoop_append id newTask pre e post hpre he]
  · intro h
    rw [hput, putLoop_absent id newTask tasks (not_mem_ids.mp h)]
    rfl

theorem putTask_replaces_witness :
    jsonContentType "application/json" = true ∧
    (⟨⟨7⟩, "t2", "b2", "yes"⟩ : Task).Title ≠ "" ∧
    (⟨⟨7⟩, "t2", "b2", "yes"⟩ : Task).Body ≠ "" ∧
    (⟨1⟩ : UUID) ∈ ids seeded ∧
    ((⟨1⟩ : UUID) ∈ ids seeded →
      ∃ pre old post, seeded = pre ++ old :: post ∧ old.ID = ⟨1⟩ ∧
        (∀ t ∈ pre, t.ID ≠ (⟨1⟩ : UUID)) ∧
        putTask seeded "application/json" (some ⟨1⟩) (some ⟨⟨7⟩, "t2", "b2", "yes"⟩) =
          (⟨StatusOK, none, .task ⟨old.ID, "t2", "b2", old.Status⟩⟩,
            pre ++ ⟨old.ID, "t2", "b2", old.Status⟩ :: post)) ∧
    ((⟨1⟩ : UUID) ∉ ids seeded →
      putTask seeded "application/json" (some ⟨1⟩) (some ⟨⟨7⟩, "t2", "b2", "yes"⟩) =
        (⟨StatusNotFound, none, .error "task not found"⟩, seeded)) :=
  ⟨by decide, by decide, by decide, by decide,
    putTask_replaces seeded "application/json" ⟨1⟩ ⟨⟨7⟩, "t2", "b2", "yes"⟩
      (by decide) (by decide) (by decide)⟩

/-! ## Mark complete -/

/-- C3 (as amended): on a collection that has a task with the id, mark-complete
called twice is answered 200 both times, the returned task has the id and status
`yes` both times (it is the same task both times), and the second call leaves the
collection as the first call left it. -/
theorem patchTask_idempotent (tasks : List Task) (id : UUID) (h : id ∈ ids tasks) :
    ∃ t, t.ID = id ∧ t.Status = "yes" ∧
      (patchTask tasks (some id)).1 = ⟨StatusOK, none, .task t⟩ ∧
      patchTask (patchTask tasks (some id)).2 (some id) =
        (⟨StatusOK, none, .task t⟩, (patchTask tasks (some id)).2) := by
  obtain ⟨pre, e, post, hs, he, hpre⟩ := first_match id tasks h
  refine ⟨{ e with Status := "yes" }, he, rfl, ?_, ?_⟩
  · simp only [patchTask]
    rw [hs, patchLoop_append id pre e post hpre he]
  · simp only [patchTask]
    rw [hs, patchLoop_append id pre e post hpre he]
    exact patchLoop_append id pre { e with Status := "yes" } post hpre he

theorem patchTask_idempotent_witness :
    (⟨1⟩ : UUID) ∈ ids seeded ∧
    ∃ t : Task, t.ID = ⟨1⟩ ∧ t.Status = "yes" ∧
      (patchTask seeded (some ⟨1⟩)).1 = ⟨StatusOK, none, .task t⟩ ∧
      patchTask (patchTask seeded (some ⟨1⟩)).2 (some ⟨1⟩) =
        (⟨StatusOK, none, .task t⟩, (patchTask seeded (some ⟨1⟩)).2) :=
  ⟨by decide, patchTask_idempotent seeded ⟨1⟩ (by decide)⟩

/-- C3 as stated fails: marking a seeded task complete returns a task whose
status is not `complete`. -/
theorem patchTask_status_not_complete :
    ¬ ∃ t, (patchTask seeded (some ⟨1⟩)).1.body = .task t ∧ t.Status = "complete" := by
  rintro ⟨t, ht, hs⟩
  have hbody : (patchTask seeded (some ⟨1⟩)).1.body =
      .task ⟨⟨1⟩, "go to gym", "It's a leg-day today", "yes"⟩ := by decide
  rw [hbody] at ht
  simp only [Payload.task.injEq] at ht
  subst ht
  exact absurd hs (by decide)

/-! ## Remove -/

/-- C5: remove with a parseable id that no task of the collection carries is
answered 404 and leaves the collection as it was. -/
theorem deleteTask_not_found (str : UUID → String) (tasks : List Task) (id : UUID)
    (h : id ∉ ids tasks) :
    deleteTask str tasks (some id) =
      some (⟨StatusNotFound, none, .error "task not found"⟩, tasks) := by
  rw [deleteTask_absent str id tasks (not_mem_ids.mp h)]
  rfl

theorem deleteTask_not_found_witness :
    (⟨5⟩ : UUID) ∉ ids seeded ∧
    deleteTask decimalString seeded (some ⟨5⟩) =
      some (⟨StatusNotFound, none, .error "task not found"⟩, seeded) :=
  ⟨by decide, deleteTask_not_found decimalString seeded ⟨5⟩ (by decide)⟩

/-- C6: remove, run with no other request in between, on a collection with
pairwise distinct ids that has a task with the id: the answer is 200 with the
message "deleted task with id " followed by the id; the new collection is the
old one without the task of that id, every other task kept as it was and in the
same order; it is one shorter; and a get of that id on it is answered 404. -/
theorem deleteTask_removes (str : UUID → String) (tasks : List Task) (id : UUID)
    (hnd : (ids tasks).Nodup) (h : id ∈ ids tasks) :
    ∃ tasks', deleteTask str tasks (some id) =
        some (⟨StatusOK, none, .message ("deleted task with id " ++ str id)⟩, tasks') ∧
      tasks' = tasks.filter (fun t => decide (t.ID ≠ id)) ∧
      id ∉ ids tasks' ∧
      tasks'.length + 1 = tasks.length ∧
      getTask tasks' (some id) = (⟨StatusNotFound, none, .error "task not found"⟩, tasks') := by
  obtain ⟨pre, e, post, hs, he, hpre⟩ := first_match id tasks h
  subst hs
  rw [ids_append_cons, List.nodup_append] at hnd
  obtain ⟨_, hcons, _⟩ := hnd
  rw [List.nodup_cons] at hcons
  have hpost : ∀ t ∈ post, t.ID ≠ id := by
    intro t ht hid
    exact hcons.1 (by rw [he, ← hid]; exact List.mem_map_of_mem _ ht)
  have hall : ∀ t ∈ pre ++ post, t.ID ≠ id := by
    intro t ht
    rcases List.mem_append.mp ht with ht | ht
    · exact hpre t ht
    · exact hpost t ht
  refine ⟨pre ++ post, deleteTask_append str id pre e post hpre he, ?_, ?_, ?_, ?_⟩
  · have h1 : pre.filter (fun t => decide (t.ID ≠ id)) = pre :=
      List.filter_eq_self.mpr (fun t ht => by simpa using hpre t ht)
    have h2 : post.filter (fun t => decide (t.ID ≠ id)) = post :=
      List.filter_eq_self.mpr (fun t ht => by simpa using hpost t ht)
    rw [List.filter_append, List.filter_cons, h1, h2]
    simp [he]
  · exact not_mem_ids.mpr hall
  · simp
    omega
  · simp only [getTask]
    rw [getLoop_absent id (pre ++ post) hall]
    rfl

theorem deleteTask_removes_witness :
    (ids seeded).Nodup ∧ (⟨0⟩ : UUID) ∈ ids seeded ∧
    ∃ tasks', deleteTask decimalString seeded (some ⟨0⟩) =
        some (⟨StatusOK, none, .message ("deleted task with id " ++ decimalString ⟨0⟩)⟩,
          tasks') ∧
      tasks' = seeded.filter (fun t => decide (t.ID ≠ (⟨0⟩ : UUID))) ∧
      (⟨0⟩ : UUID) ∉ ids tasks' ∧
      tasks'.length + 1 = seeded.length ∧
      getTask tasks' (some ⟨0⟩) = (⟨StatusNotFound, none, .error "task not found"⟩, tasks') :=
  ⟨by decide, by decide, deleteTask_removes decimalString seeded ⟨0⟩ (by decide) (by decide)⟩

/-! ## Validation order -/

/-- C9: on create and on replace (with a parseable id), for a request with a
JSON content type and a parseable body, the body field is checked before the
title field: when both are empty the answer is 400 with the message
"field 'body' is required", and the message "field 'title' is required" is the
answer exactly when the body is non-empty and the title is empty. -/
theorem validation_order (str : UUID → String) (fresh : UUID) (tasks : List Task)
    (contentType : String) (id : UUID) (newTask : Task)
    (hct : jsonContentType contentType = true) :
    (newTask.Title = "" → newTask.Body = "" →
      postTask str fresh tasks contentType (some newTask) =
        (⟨StatusBadRequest, none, .error "field 'body' is required"⟩, tasks)) ∧
    ((postTask str fresh tasks contentType (some newTask)).1.body =
        .error "field 'title' is required" ↔ newTask.Body ≠ "" ∧ newTask.Title = "") ∧
    (newTask.Title = "" → newTask.Body = "" →
      putTask tasks contentType (some id) (some newTask) =
        (⟨StatusBadRequest, none, .error "field 'body' is required"⟩, tasks)) ∧
    ((putTask tasks contentType (some id) (some newTask)).1.body =
        .error "field 'title' is required" ↔ newTask.Body ≠ "" ∧ newTask.Title = "") := by
  refine ⟨?_, ?_, ?_, ?_⟩
  · intro _ hB
    simp [postTask, hct, hB, bodyRequired]
  · by_cases hB : newTask.Body = ""
    · simp [postTask, hct, hB, bodyRequired]
    · by_cases hT : newTask.Title = ""
      · simp [postTask, hct, hB, hT, titleRequired]
      · simp [postTask, hct, hB, hT]
  · intro _ hB
    simp [putTask, hct, hB, bodyRequired]
  · by_cases hB : newTask.Body = ""
    · simp [putTask, hct, hB, bodyRequired]
    · by_cases hT : newTask.Title = ""
      · simp [putTask, hct, hB, hT, titleRequired]
      · have := putLoop_body_ne_title id newTask tasks
        simp [putTask, hct, hB, hT, this]

theorem validation_order_witness :
    jsonContentType "application/json" = true ∧
    (⟨⟨0⟩, "", "", ""⟩ : Task).Title = "" ∧ (⟨⟨0⟩, "", "", ""⟩ : Task).Body = "" ∧
    postTask decimalString ⟨2⟩ seeded "application/json" (some ⟨⟨0⟩, "", "", ""⟩) =
      (⟨StatusBadRequest, none, .error "field 'body' is required"⟩, seeded) ∧
    putTask seeded "application/json" (some ⟨1⟩) (some ⟨⟨0⟩, "", "", ""⟩) =
      (⟨StatusBadRequest, none, .error "field 'body' is required"⟩, seeded) :=
  have h := validation_order decimalString ⟨2⟩ seeded "application/json" ⟨1⟩ ⟨⟨0⟩, "", "", ""⟩
    (by decide)
  ⟨by decide, by decide, by decide, h.1 (by decide) (by decide),
    h.2.2.1 (by decide) (by decide)⟩

/-! ## What one request does to the tasks of a collection -/

/-- Relation between the collection before and after a request that creates no
task: no identifier is new, the order of identifiers is kept, and a task of the
new collection has the status of a task with its identifier in the old one,
unless the request is mark-complete on that identifier, which gives it `yes`. -/
def Evolves (req : Request) (tasks tasks' : List Task) : Prop :=
  (ids tasks').Sublist (ids tasks) ∧
  ∀ t' ∈ tasks', ∃ t ∈ tasks, t'.ID = t.ID ∧
    (t'.Status = t.Status ∨ (req = .patch (some t.ID) ∧ t'.Status = "yes"))

theorem evolves_same (req : Request) (tasks : List Task) : Evolves req tasks tasks :=
  ⟨List.Sublist.refl _, fun t ht => ⟨t, ht, rfl, Or.inl rfl⟩⟩

theorem evolves_update (req : Request) (pre : List Task) (e e' : Task) (post : List Task)
    (hid : e'.ID = e.ID)
    (hst : e'.Status = e.Status ∨ (req = .patch (some e.ID) ∧ e'.Status = "yes")) :
    Evolves req (pre ++ e :: post) (pre ++ e' :: post) := by
  constructor
  · rw [ids_append_cons, ids_append_cons, hid]
  · intro t' ht'
    simp only [List.mem_append, List.mem_cons] at ht'
    rcases ht' with ht' | rfl | ht'
    · exact ⟨t', by simp [ht'], rfl, Or.inl rfl⟩
    · exact ⟨e, by simp, hid, hst⟩
    · exact ⟨t', by simp [ht'], rfl, Or.inl rfl⟩

theorem evolves_remove (req : Request) (pre : List Task) (e : Task) (post : List Task) :
    Evolves req (pre ++ e :: post) (pre ++ post) := by
  constructor
  · rw [ids_append_cons]
    simp only [ids, List.map_append]
    exact List.Sublist.append (List.Sublist.refl _) (List.sublist_cons_self _ _)
  · intro t' ht'
    simp only [List.mem_append] at ht'
    rcases ht' with ht' | ht'
    · exact ⟨t', by simp [ht'], rfl, Or.inl rfl⟩
    · exact ⟨t', by simp [ht'], rfl, Or.inl rfl⟩

theorem ok_ne_created : StatusOK ≠ StatusCreated := by decide

theorem badRequest_ne_created : StatusBadRequest ≠ StatusCreated := by decide

theorem notFound_ne_created : StatusNotFound ≠ StatusCreated := by decide

theorem unsupported_ne_created : StatusUnsupportedMediaType ≠ StatusCreated := by decide

theorem getLoop_status (id : UUID) (tasks : List Task) :
    (getLoop id tasks).status ≠ StatusCreated := by
  induction tasks with
  | nil => exact notFound_ne_created
  | cons a rest ih =>
    rw [getLoop]
    split
    · exact ok_ne_created
    · exact ih

theorem patchTask_evolves (tasks : List Task) (id : Option UUID) :
    (patchTask tasks id).1.status ≠ StatusCreated ∧
    Evolves (.patch id) tasks (patchTask tasks id).2 := by
  cases id with
  | none => exact ⟨badRequest_ne_created, evolves_same _ _⟩
  | some id =>
    simp only [patchTask]
    by_cases h : id ∈ ids tasks
    · obtain ⟨pre, e, post, hs, he, hpre⟩ := first_match id tasks h
      rw [hs, patchLoop_append id pre e post hpre he]
      exact ⟨ok_ne_created, evolves_update _ pre e _ post rfl (Or.inr ⟨by rw [he], rfl⟩)⟩
    · rw [patchLoop_absent id tasks (not_mem_ids.mp h)]
      exact ⟨notFound_ne_created, evolves_same _ _⟩

theorem putLoop_evolves (req : Request) (id : UUID) (newTask : Task) (tasks : List Task) :
    (putLoop id newTask tasks).1.status ≠ StatusCreated ∧
    Evolves req tasks (putLoop id newTask tasks).2 := by
  by_cases h : id ∈ ids tasks
  · obtain ⟨pre, e, post, hs, he, hpre⟩ := first_match id tasks h
    rw [hs, putLoop_append id newTask pre e post hpre he]
    exact ⟨ok_ne_created, evolves_update _ pre e _ post rfl (Or.inl rfl)⟩
  · rw [putLoop_absent id newTask tasks (not_mem_ids.mp h)]
    exact ⟨notFound_ne_created, evolves_same _ _⟩

theorem putTask_evolves (req : Request) (tasks : List Task) (contentType : String)
    (id : Option UUID) (parsed : Option Task) :
    (putTask tasks contentType id parsed).1.status ≠ StatusCreated ∧
    Evolves req tasks (putTask tasks contentType id parsed).2 := by
  unfold putTask
  split
  · exact ⟨unsupported_ne_created, evolves_same _ _⟩
  · split
    · exact ⟨badRequest_ne_created, evolves_same _ _⟩
    · split
      · exact ⟨badRequest_ne_created, evolves_same _ _⟩
      · split
        · exact ⟨badRequest_ne_created, evolves_same _ _⟩
        · split
          · exact ⟨badRequest_ne_created, evolves_same _ _⟩
          · exact putLoop_evolves req _ _ tasks

theorem deleteTask_evolves (req : Request) (str : UUID → String) (tasks : List Task)
    (id : Option UUID) :
    ∃ res tasks', deleteTask str tasks id = some (res, tasks') ∧
      res.status ≠ StatusCreated ∧ Evolves req tasks tasks' := by
  cases id with
  | none => exact ⟨_, _, rfl, badRequest_ne_created, evolves_same _ _⟩
  | some id =>
    by_cases h : id ∈ ids tasks
    · obtain ⟨pre, e, post, hs, he, hpre⟩ := first_match id tasks h
      subst hs
      exact ⟨_, _, deleteTask_append str id pre e post hpre he, ok_ne_created,
        evolves_remove _ pre e post⟩
    · exact ⟨_, _, deleteTask_absent str id tasks (not_mem_ids.mp h), notFound_ne_created,
        evolves_same _ _⟩

theorem postTask_cases (str : UUID → String) (fresh : UUID) (tasks : List Task)
    (contentType : String) (parsed : Option Task) :
    (∃ t, t.ID = fresh ∧ t.Status = "no" ∧
        (postTask str fresh tasks contentType parsed).1.status = StatusCreated ∧
        (postTask str fresh tasks contentType parsed).1.body = .task t ∧
        (postTask str fresh tasks contentType parsed).2 = tasks ++ [t]) ∨
    ((postTask str fresh tasks contentType parsed).1.status ≠ StatusCreated ∧
      (postTask str fresh tasks contentType parsed).2 = tasks) := by
  unfold postTask
  split
  · exact Or.inr ⟨unsupported_ne_created, rfl⟩
  · split
    · exact Or.inr ⟨badRequest_ne_created, rfl⟩
    · split
      · exact Or.inr ⟨badRequest_ne_created, rfl⟩
      · split
        · exact Or.inr ⟨badRequest_ne_created, rfl⟩
        · exact Or.inl ⟨_, rfl, rfl, rfl, rfl, rfl⟩

/-- Every request served alone returns, and either it created one task with the
fresh identifier, appended at the end, or it created none and the collection
evolved as `Evolves` says. -/
theorem handle_cases (str : UUID → String) (fresh : UUID) (tasks : List Task)
    (req : Request) :
    ∃ res tasks', handle str fresh tasks req = some (res, tasks') ∧
      ((∃ t, t.ID = fresh ∧ t.Status = "no" ∧ res.status = StatusCreated ∧
          res.body = .task t ∧ tasks' = tasks ++ [t]) ∨
        (res.status ≠ StatusCreated ∧ Evolves req tasks tasks')) := by
  cases req with
  | list => exact ⟨_, _, rfl, Or.inr ⟨ok_ne_created, evolves_same _ _⟩⟩
  | get id =>
    refine ⟨(getTask tasks id).1, (getTask tasks id).2, rfl, Or.inr ⟨?_, ?_⟩⟩
    · cases id with
      | none => exact badRequest_ne_created
      | some id => exact getLoop_status id tasks
    · cases id <;> exact evolves_same _ _
  | post contentType parsed =>
    refine ⟨(postTask str fresh tasks contentType parsed).1,
      (postTask str fresh tasks contentType parsed).2, rfl, ?_⟩
    rcases postTask_cases str fresh tasks contentType parsed with h | ⟨h1, h2⟩
    · exact Or.inl h
    · refine Or.inr ⟨h1, ?_⟩
      rw [h2]
      exact evolves_same _ _
  | patch id => exact ⟨_, _, rfl, Or.inr (patchTask_evolves tasks id)⟩
  | put contentType id parsed =>
    exact ⟨_, _, rfl, Or.inr (putTask_evolves _ tasks contentType id parsed)⟩
  | delete id =>
    obtain ⟨res, tasks', h, h1, h2⟩ := deleteTask_evolves (.delete id) str tasks id
    exact ⟨res, tasks', h, Or.inr ⟨h1, h2⟩⟩

theorem status_link (str : UUID → String) (fresh : UUID) (tasks : List Task) (req : Request)
    (hnd : (ids tasks).Nodup) (hfresh : fresh ∉ ids tasks)
    (res : Response) (tasks' : List Task)
    (hrun : handle str fresh tasks req = some (res, tasks'))
    (t : Task) (ht : t ∈ tasks) (t' : Task) (ht' : t' ∈ tasks') (hid : t'.ID = t.ID) :
    t'.Status = t.Status ∨ (req = .patch (some t.ID) ∧ t'.Status = "yes") := by
  have hinj : ∀ a ∈ tasks, ∀ b ∈ tasks, a.ID = b.ID → a = b :=
    fun a ha b hb hab => List.inj_on_of_nodup_map hnd ha hb hab
  obtain ⟨res0, tasks0, h0, hcases⟩ := handle_cases str fresh tasks req
  rw [hrun] at h0
  simp only [Option.some.injEq, Prod.mk.injEq] at h0
  obtain ⟨rfl, rfl⟩ := h0
  rcases hcases with ⟨n, hn, _, _, _, hs⟩ | ⟨_, _, hev⟩
  · subst hs
    rcases List.mem_append.mp ht' with h | h
    · rw [hinj t' h t ht hid]
      exact Or.inl rfl
    · simp only [List.mem_singleton] at h
      subst h
      exact absurd (by rw [← hn, hid]; exact List.mem_map_of_mem _ ht) hfresh
  · obtain ⟨t0, ht0, hid0, hst⟩ := hev t' ht'
    have : t0 = t := hinj t0 ht0 t ht (by rw [← hid0, hid])
    subst this
    exact hst

/-! ## No reopen -/

/-- C8 (as amended): on a collection with pairwise distinct ids, every single
request (create with a fresh id, replace, mark-complete, remove, get, list)
returns, and a task that had status `yes` before still has status `yes` after if
a task with its id still exists; whenever the status of an existing task
changes, the request is mark-complete on its id and the new status is `yes`
(so the old one was `no`, if it was one of `no` and `yes`). -/
theorem no_reopen (str : UUID → String) (fresh : UUID) (tasks : List Task) (req : Request)
    (hnd : (ids tasks).Nodup) (hfresh : fresh ∉ ids tasks) :
    ∃ res tasks', handle str fresh tasks req = some (res, tasks') ∧
      (∀ t ∈ tasks, t.Status = "yes" → ∀ t' ∈ tasks', t'.ID = t.ID → t'.Status = "yes") ∧
      (∀ t ∈ tasks, ∀ t' ∈ tasks', t'.ID = t.ID → t'.Status ≠ t.Status →
        req = .patch (some t.ID) ∧ t'.Status = "yes" ∧
          (t.Status = "no" ∨ t.Status = "yes" → t.Status = "no")) := by
  obtain ⟨res, tasks', hrun, _⟩ := handle_cases str fresh tasks req
  refine ⟨res, tasks', hrun, ?_, ?_⟩
  · intro t ht hyes t' ht' hid
    rcases status_link str fresh tasks req hnd hfresh res tasks' hrun t ht t' ht' hid with h | h
    · rw [h, hyes]
    · exact h.2
  · intro t ht t' ht' hid hne
    rcases status_link str fresh tasks req hnd hfresh res tasks' hrun t ht t' ht' hid with h | h
    · exact absurd h hne
    · refine ⟨h.1, h.2, ?_⟩
      rintro (hno | hyes)
      · exact hno
      · exact absurd (h.2.trans hyes.symm) hne

theorem no_reopen_witness :
    (ids seeded).Nodup ∧ (⟨2⟩ : UUID) ∉ ids seeded ∧
    ∃ res tasks', handle decimalString ⟨2⟩ seeded (.patch (some ⟨0⟩)) = some (res, tasks') ∧
      (∀ t ∈ seeded, t.Status = "yes" → ∀ t' ∈ tasks', t'.ID = t.ID → t'.Status = "yes") ∧
      (∀ t ∈ seeded, ∀ t' ∈ tasks', t'.ID = t.ID → t'.Status ≠ t.Status →
        Request.patch (some ⟨0⟩) = .patch (some t.ID) ∧ t'.Status = "yes" ∧
          (t.Status = "no" ∨ t.Status = "yes" → t.Status = "no")) :=
  ⟨by decide, by decide,
    no_reopen decimalString ⟨2⟩ seeded (.patch (some ⟨0⟩)) (by decide) (by decide)⟩

/-- C8 as stated fails: mark-complete on the first seeded task changes the
status of an existing task, and that change is not from `incomplete` to
`complete`. -/
theorem status_change_not_incomplete_to_complete :
    ∃ res tasks' t t', handle decimalString ⟨2⟩ seeded (.patch (some ⟨0⟩)) = some (res, tasks') ∧
      t ∈ seeded ∧ t' ∈ tasks' ∧ t'.ID = t.ID ∧ t'.Status ≠ t.Status ∧
      ¬ (t.Status = "incomplete" ∧ t'.Status = "complete") := by
  refine ⟨⟨StatusOK, none, .task ⟨⟨0⟩, "buy groceries", "list: banana, apple, bread", "yes"⟩⟩,
    [⟨⟨0⟩, "buy groceries", "list: banana, apple, bread", "yes"⟩,
      ⟨⟨1⟩, "go to gym", "It's a leg-day today", "no"⟩],
    ⟨⟨0⟩, "buy groceries", "list: banana, apple, bread", "no"⟩,
    ⟨⟨0⟩, "buy groceries", "list: banana, apple, bread", "yes"⟩, ?_, ?_, ?_, ?_, ?_, ?_⟩ <;>
  decide

/-! ## Unique identifiers -/

theorem createdIDs_created (res : Response) (out : List Response) (t : Task)
    (hst : res.status = StatusCreated) (hbody : res.body = .task t) :
    createdIDs (res :: out) = t.ID :: createdIDs out := by
  simp [createdIDs, hst, hbody]

theorem createdIDs_other (res : Response) (out : List Response)
    (hst : res.status ≠ StatusCreated) :
    createdIDs (res :: out) = createdIDs out := by
  rw [createdIDs]
  split
  · rw [if_neg hst]
  · rfl

/-- One request keeps the identifiers pairwise distinct and among those issued,
and issues one more identifier exactly when it creates a task. -/
theorem step_inv (str : UUID → String) (gen : Nat → UUID) (hgen : Function.Injective gen)
    (s : Server) (req : Request) (hnd : (ids s.tasks).Nodup)
    (hin : ∀ i ∈ ids s.tasks, ∃ k, k < s.issued ∧ i = gen k) :
    ∃ res s', step str gen s req = some (res, s') ∧ (ids s'.tasks).Nodup ∧
      (∀ i ∈ ids s'.tasks, ∃ k, k < s'.issued ∧ i = gen k) ∧
      ((s'.issued = s.issued + 1 ∧
          ∀ out, createdIDs (res :: out) = gen s.issued :: createdIDs out) ∨
        (s'.issued = s.issued ∧ ∀ out, createdIDs (res :: out) = createdIDs out)) := by
  obtain ⟨res, tasks', hrun, hcases⟩ := handle_cases str (gen s.issued) s.tasks req
  have hfresh : gen s.issued ∉ ids s.tasks := by
    intro hmem
    obtain ⟨k, hk, hkeq⟩ := hin _ hmem
    have := hgen hkeq
    omega
  rcases hcases with ⟨t, htid, _, hst, hbody, htasks⟩ | ⟨hst, hsub, _⟩
  · refine ⟨res, ⟨tasks', s.issued + 1⟩, ?_, ?_, ?_, Or.inl ⟨rfl, ?_⟩⟩
    · simp [step, hrun, hst]
    · subst htasks
      simp only [ids, List.map_append, List.map_cons, List.map_nil]
      rw [List.nodup_append]
      refine ⟨hnd, List.nodup_singleton _, ?_⟩
      intro a ha hb
      simp only [List.mem_singleton] at hb
      subst hb
      rw [htid] at ha
      exact hfresh ha
    · intro i hi
      subst htasks
      simp only [ids, List.map_append, List.map_cons, List.map_nil, List.mem_append,
        List.mem_singleton] at hi
      rcases hi with hi | hi
      · obtain ⟨k, hk, hkeq⟩ := hin i hi
        exact ⟨k, Nat.lt_succ_of_lt hk, hkeq⟩
      · exact ⟨s.issued, Nat.lt_succ_self _, by rw [hi, htid]⟩
    · intro out
      rw [createdIDs_created res out t hst hbody, htid]
  · refine ⟨res, ⟨tasks', s.issued⟩, ?_, hnd.sublist hsub, ?_, Or.inr ⟨rfl, ?_⟩⟩
    · simp [step, hrun, hst]
    · intro i hi
      exact hin i (hsub.subset hi)
    · intro out
      exact createdIDs_other res out hst

theorem run_inv (str : UUID → String) (gen : Nat → UUID) (hgen : Function.Injective gen)
    (reqs : List Request) :
    ∀ s : Server, (ids s.tasks).Nodup → (∀ i ∈ ids s.tasks, ∃ k, k < s.issued ∧ i = gen k) →
      ∃ out s', run str gen s reqs = some (out, s') ∧ (ids s'.tasks).Nodup ∧
        ∃ n, createdIDs out = (List.range' s.issued n).map gen := by
  induction reqs with
  | nil =>
    intro s hnd _
    exact ⟨[], s, rfl, hnd, 0, rfl⟩
  | cons req rest ih =>
    intro s hnd hin
    obtain ⟨res, s1, hstep, hnd1, hin1, hissued⟩ := step_inv str gen hgen s req hnd hin
    obtain ⟨out, s2, hrun, hnd2, n, hn⟩ := ih s1 hnd1 hin1
    refine ⟨res :: out, s2, ?_, hnd2, ?_⟩
    · simp [run, hstep, hrun]
    · rcases hissued with ⟨h1, hc⟩ | ⟨h1, hc⟩
      · refine ⟨n + 1, ?_⟩
        rw [hc out, hn, h1, List.range'_succ, List.map_cons]
      · refine ⟨n, ?_⟩
        rw [hc out, hn, h1]

/-- C7: if the identifier generator never repeats an identifier, then from the
seeded collection every sequence of requests (create, replace, mark-complete,
remove, get, list; accepted or rejected) returns and leaves a collection whose
task ids are pairwise distinct, and the ids of the two seed tasks followed by the
ids returned by the successful creates, in order, are pairwise distinct. -/
theorem unique_ids (str : UUID → String) (gen : Nat → UUID) (hgen : Function.Injective gen)
    (reqs : List Request) :
    ∃ out s', run str gen (startConf gen) reqs = some (out, s') ∧
      (ids s'.tasks).Nodup ∧
      (ids (startConf gen).tasks ++ createdIDs out).Nodup := by
  have hne : gen 0 ≠ gen 1 := fun h => absurd (hgen h) (by decide)
  have hnd0 : (ids (startConf gen).tasks).Nodup := by
    simp [startConf, ids, hne]
  have hin0 : ∀ i ∈ ids (startConf gen).tasks, ∃ k, k < (startConf gen).issued ∧ i = gen k := by
    intro i hi
    simp only [startConf, ids, List.nil_append, List.map_cons, List.map_nil, List.mem_cons,
      List.mem_singleton, List.not_mem_nil, or_false] at hi
    rcases hi with hi | hi
    · exact ⟨0, Nat.zero_lt_two, hi⟩
    · exact ⟨1, Nat.one_lt_two, hi⟩
  obtain ⟨out, s', hrun, hnd, n, hn⟩ := run_inv str gen hgen reqs (startConf gen) hnd0 hin0
  refine ⟨out, s', hrun, hnd, ?_⟩
  have hall : ids (startConf gen).tasks ++ createdIDs out =
      (0 :: 1 :: List.range' 2 n).map gen := by
    rw [hn]
    rfl
  rw [hall]
  refine List.Nodup.map hgen ?_
  simp [List.nodup_range', List.mem_range'_1]

theorem unique_ids_witness :
    Function.Injective countingGen ∧
    ∃ out s', run decimalString countingGen (startConf countingGen)
        [.post "application/json" (some ⟨⟨0⟩, "t", "b", "yes"⟩),
          .post "text/plain" (some ⟨⟨0⟩, "t", "b", ""⟩),
          .patch (some ⟨2⟩),
          .put "application/json" (some ⟨2⟩) (some ⟨⟨1⟩, "t2", "b2", "no"⟩),
          .delete (some ⟨0⟩),
          .post "application/json" (some ⟨⟨1⟩, "u", "c", ""⟩)] = some (out, s') ∧
      (ids s'.tasks).Nodup ∧
      (ids (startConf countingGen).tasks ++ createdIDs out).Nodup :=
  ⟨fun _ _ h => congrArg UUID.val h,
    unique_ids decimalString countingGen (fun _ _ h => congrArg UUID.val h) _⟩

/-! ## The two critical sections of remove -/

/-- C10: remove is the locate section followed by the removal-by-index section,
and the two can be separated by another request: with another remove served in
between, the removal by the stale index (a) answers 200 "deleted" after removing
a task with another id while the task with the requested id stays, which is not
what removing the task with that id from the collection it acts on gives, and
(b) on another collection uses an index outside the collection. -/
theorem delete_not_atomic (str : UUID → String) :
    (∀ tasks id, deleteTask str tasks (some id) =
        match deleteLocate id tasks with
        | some index => deleteCommit str id index tasks
        | none => some (taskNotFound, tasks)) ∧
    (∃ tasks id other index r mid res final,
        deleteLocate id tasks = some index ∧
        deleteTask str tasks (some other) = some (r, mid) ∧
        deleteCommit str id index mid = some (res, final) ∧
        res = ⟨StatusOK, none, .message ("deleted task with id " ++ str id)⟩ ∧
        id ∈ ids final ∧
        (∃ t ∈ mid, t.ID ≠ id ∧ t ∉ final) ∧
        final ≠ mid.filter (fun t => decide (t.ID ≠ id))) ∧
    (∃ tasks id other index r mid,
        deleteLocate id tasks = some index ∧
        deleteTask str tasks (some other) = some (r, mid) ∧
        id ∈ ids mid ∧
        deleteCommit str id index mid = none) := by
  refine ⟨fun _ _ => rfl, ?_, ?_⟩
  · refine ⟨seeded ++ [(⟨⟨2⟩, "t", "b", "no"⟩ : Task)], ⟨1⟩, ⟨0⟩, 1,
      ⟨StatusOK, none, .message ("deleted task with id " ++ str ⟨0⟩)⟩,
      [⟨⟨1⟩, "go to gym", "It's a leg-day today", "no"⟩, ⟨⟨2⟩, "t", "b", "no"⟩],
      ⟨StatusOK, none, .message ("deleted task with id " ++ str ⟨1⟩)⟩,
      [⟨⟨1⟩, "go to gym", "It's a leg-day today", "no"⟩], ?_, ?_, ?_, rfl, ?_, ?_, ?_⟩
    · rfl
    · rfl
    · rfl
    · decide
    · exact ⟨⟨⟨2⟩, "t", "b", "no"⟩, by decide, by decide, by decide⟩
    · decide
  · refine ⟨seeded, ⟨1⟩, ⟨0⟩, 1,
      ⟨StatusOK, none, .message ("deleted task with id " ++ str ⟨0⟩)⟩,
      [⟨⟨1⟩, "go to gym", "It's a leg-day today", "no"⟩], ?_, ?_, ?_, ?_⟩
    · rfl
    · rfl
    · decide
    · rfl

end TodoApi
